import Mathlib

/-!
Verification of the AleoXMiner wire-protocol codec (src/message.rs) and
connection-manager dispatch logic (src/client.rs) against its natural-language
specification.

Bytes are modelled as natural numbers (each below 256 in every buffer the
code actually produces).  External collaborator encodings are modelled at
their interface boundary:

* `bincode` (legacy configuration, as used by `bincode::serialize_into` /
  `bincode::deserialize_from`): strings are a u64 little-endian length prefix
  followed by the raw bytes; unit-variant enums are their u32 little-endian
  variant index.
* `serde_json`: compact output, strings with the standard escapes
  (`\"`, `\\`, `\b`, `\t`, `\n`, `\f`, `\r`, and `\u00XX` for the remaining
  control bytes, lowercase hex), tuples as arrays, unit enum variants as
  their name string.  `serde_json::from_reader` parses one value and then
  requires the stream to be exhausted (trailing bytes are an error); the
  model omits trailing-whitespace tolerance, which this codec never emits.
* The snarkvm types `BlockTemplate`, `PoSWNonce` and `PoSWProof` are opaque
  blobs with self-describing serialize/deserialize contracts, carried as
  parameters (`OpaqueCodec`, bundled in `Collab`).
-/

namespace AXM

/-- Little-endian fixed-width byte encoding of a natural number, as produced
by `to_le_bytes` on the `k`-byte Rust integer types (a wider value is
truncated, matching an `as` cast). -/
def leBytes : Nat → Nat → List Nat
  | 0, _ => []
  | k + 1, n => n % 256 :: leBytes k (n / 256)

/-- Little-endian value of a byte list, as read by `from_le_bytes`. -/
def leNat : List Nat → Nat
  | [] => 0
  | b :: bs => b + 256 * leNat bs

/-- ASCII decimal digit test (bytes 48-57). -/
def isDigitB (b : Nat) : Bool := decide (48 ≤ b ∧ b ≤ 57)

/-- Value of a most-significant-first ASCII digit string. -/
def decValue (ds : List Nat) : Nat := ds.foldl (fun acc d => 10 * acc + (d - 48)) 0

/-- Fuelled worker for `decDigits`; fuel `n + 1` always suffices. -/
def decAux : Nat → Nat → List Nat
  | 0, _ => []
  | fuel + 1, n => if n < 10 then [48 + n] else decAux fuel (n / 10) ++ [48 + n % 10]

/-- ASCII decimal digits of `n`, most significant first; models Rust
`to_string` on integers and serde_json integer output. -/
def decDigits (n : Nat) : List Nat := decAux (n + 1) n

/-- Parse a run of ASCII digits from the front of a buffer; models the
integer part of serde_json number parsing (the codec only ever carries
non-negative integers). -/
def parseDec (l : List Nat) : Option (Nat × List Nat) :=
  if (l.takeWhile isDigitB).isEmpty then none
  else some (decValue (l.takeWhile isDigitB), l.dropWhile isDigitB)

/-- Parse a decimal integer that must fit the target Rust integer type of
size bound `bound`; serde_json reports an overflowing literal as an error. -/
def parseDecLt (bound : Nat) (l : List Nat) : Option (Nat × List Nat) :=
  match parseDec l with
  | none => none
  | some (v, r) => if v < bound then some (v, r) else none

/-- Buffer whose first byte (when present) is not an ASCII digit; the shape
of every tail that follows a number inside the arrays this codec emits. -/
def HeadNotDigit : List Nat → Prop
  | [] => True
  | b :: _ => isDigitB b = false

/-- Digits-and-bound part of u16 string parsing: a non-empty all-digit
string whose value fits in a u16. -/
def parseU16Core (s2 : List Nat) : Option Nat :=
  if s2.isEmpty then none
  else if s2.all isDigitB then
    if decValue s2 < 65536 then some (decValue s2) else none
  else none

/-- Model of `u16::from_str` (`str::parse::<u16>`): an optional leading plus
sign, then a non-empty all-digit string whose value fits in a u16. -/
def parseU16Str (s : List Nat) : Option Nat :=
  parseU16Core (match s with
    | b :: t => if b = 43 then t else s
    | [] => s)

/-- Lowercase hex digit byte for a value below 16, as serde_json emits in
`\u00XX` escapes. -/
def hexDigit (d : Nat) : Nat := if d < 10 then 48 + d else 87 + d

/-- Hex digit value of a byte (serde_json accepts both cases when parsing). -/
def hexVal (b : Nat) : Option Nat :=
  if 48 ≤ b ∧ b ≤ 57 then some (b - 48)
  else if 97 ≤ b ∧ b ≤ 102 then some (b - 87)
  else if 65 ≤ b ∧ b ≤ 70 then some (b - 55)
  else none

/-- serde_json escaping of one string byte: quote and backslash get two-byte
escapes, the named control characters get their short escapes, the remaining
control bytes get `\u00XX`, everything else passes through unchanged. -/
def escapeByte (b : Nat) : List Nat :=
  if b = 34 then [92, 34]
  else if b = 92 then [92, 92]
  else if b = 8 then [92, 98]
  else if b = 9 then [92, 116]
  else if b = 10 then [92, 110]
  else if b = 12 then [92, 102]
  else if b = 13 then [92, 114]
  else if b < 32 then [92, 117, 48, 48, hexDigit (b / 16), hexDigit (b % 16)]
  else [b]

/-- serde_json escaping of a whole string body. -/
def escString : List Nat → List Nat
  | [] => []
  | b :: t => escapeByte b ++ escString t

/-- serde_json serialization of a string: quoted, escaped body. -/
def jsonString (s : List Nat) : List Nat := 34 :: (escString s ++ [34])

/-- Meaning of a short escape letter when parsing a JSON string. -/
def escCode (e : Nat) : Option Nat :=
  if e = 34 then some 34
  else if e = 92 then some 92
  else if e = 47 then some 47
  else if e = 98 then some 8
  else if e = 116 then some 9
  else if e = 110 then some 10
  else if e = 102 then some 12
  else if e = 114 then some 13
  else none

/-- Prepend a byte to the string under construction in a parse result. -/
def consFst (b : Nat) : Option (List Nat × List Nat) → Option (List Nat × List Nat)
  | none => none
  | some (s, r) => some (b :: s, r)

/-- Parse the body of a JSON string after its opening quote, returning the
unescaped content and the bytes after the closing quote.  Raw control bytes
are rejected, as serde_json does; of the `\uXXXX` escapes only `\u00XX` is
modelled, which covers everything the escaper emits. -/
def parseStrBody : List Nat → Option (List Nat × List Nat)
  | [] => none
  | b :: rest =>
    if b = 34 then some ([], rest)
    else if b = 92 then
      match rest with
      | [] => none
      | e :: rest2 =>
        if e = 117 then
          match rest2 with
          | h1 :: h2 :: h3 :: h4 :: rest3 =>
            if h1 = 48 ∧ h2 = 48 then
              match hexVal h3, hexVal h4 with
              | some x, some y => consFst (16 * x + y) (parseStrBody rest3)
              | _, _ => none
            else none
          | _ => none
        else
          match escCode e with
          | some c => consFst c (parseStrBody rest2)
          | none => none
    else if b < 32 then none
    else consFst b (parseStrBody rest)
  termination_by structural l => l

/-- Parse a complete JSON string (opening quote included). -/
def parseJsonStr (l : List Nat) : Option (List Nat × List Nat) :=
  match l with
  | b :: rest => if b = 34 then parseStrBody rest else none
  | [] => none

/-- Require one specific byte at the head of the buffer. -/
def expectByte (b : Nat) : List Nat → Option (List Nat)
  | [] => none
  | x :: r => if x = b then some r else none

/-- Interface of an externally defined opaque payload type (the snarkvm
`BlockTemplate`, `PoSWNonce` and `PoSWProof` collaborator types): a binary
`write_le`/`read_le` pair and a serde_json serialize/deserialize pair, both
streaming (they consume what they need and return the remainder). -/
structure OpaqueCodec (α : Type) where
  emitLe : α → List Nat
  parseLe : List Nat → Option (α × List Nat)
  emitJson : α → List Nat
  parseJson : List Nat → Option (α × List Nat)

/-- Bundle of the three opaque collaborator types with their codecs. -/
structure Collab where
  T : Type
  N : Type
  P : Type
  ct : OpaqueCodec T
  cn : OpaqueCodec N
  cp : OpaqueCodec P

/-- Buffer tail beginning at a JSON separator (comma or closing bracket) or
empty; the positions at which an embedded opaque JSON value ends inside the
arrays this codec emits. -/
def SepHead (l : List Nat) : Prop :=
  l = [] ∨ (∃ t, l = 44 :: t) ∨ (∃ t, l = 93 :: t)

/-- The opaque JSON codec contract: parsing the emitted bytes at any
separator-delimited position succeeds and consumes exactly them.  This is the
"stable serialize/deserialize contract" the specification assumes of the
collaborator types. -/
def OpaqueCodec.JsonRT {α : Type} (c : OpaqueCodec α) : Prop :=
  ∀ a rest, SepHead rest → c.parseJson (c.emitJson a ++ rest) = some (a, rest)

/-- message.rs 20-26: submission outcome codes, ordinal-significant. -/
inductive Code where
  | Success
  | InvalidProof
  | Stale
  | ProxyException
  deriving DecidableEq

/-- Serde variant index of a `Code`, as bincode writes it (u32). -/
def codeIdx : Code → Nat
  | .Success => 0
  | .InvalidProof => 1
  | .Stale => 2
  | .ProxyException => 3

/-- Bincode enum decoding for `Code`: the u32 variant index, rejecting any
index with no variant. -/
def codeOfIdx (n : Nat) : Option Code :=
  if n = 0 then some .Success
  else if n = 1 then some .InvalidProof
  else if n = 2 then some .Stale
  else if n = 3 then some .ProxyException
  else none

/-- ASCII bytes of the Rust variant name of a `Code`, the form in which
serde_json writes a unit enum variant. -/
def codeName : Code → List Nat
  | .Success => [83, 117, 99, 99, 101, 115, 115]
  | .InvalidProof => [73, 110, 118, 97, 108, 105, 100, 80, 114, 111, 111, 102]
  | .Stale => [83, 116, 97, 108, 101]
  | .ProxyException => [80, 114, 111, 120, 121, 69, 120, 99, 101, 112, 116, 105, 111, 110]

/-- serde_json enum decoding for `Code`: match the variant name string. -/
def codeOfName (s : List Nat) : Option Code :=
  if s = codeName .Success then some .Success
  else if s = codeName .InvalidProof then some .InvalidProof
  else if s = codeName .Stale then some .Stale
  else if s = codeName .ProxyException then some .ProxyException
  else none

/-- serde_json serialization of a `Code`. -/
def jsonCode (c : Code) : List Nat := jsonString (codeName c)

/-- message.rs 30-46: the protocol message taxonomy.  Strings are byte lists,
fixed-width integers are naturals bounded by their Rust type where theorems
need the bound, and the opaque snarkvm payloads come from `γ`. -/
inductive ProverMessage (γ : Collab) where
  | Authorize (account worker password : List Nat) (version : Nat)
  | AuthorizeResult (success : Bool) (message : Option (List Nat))
  | Notify (template : γ.T) (poolTarget : Nat)
  | Submit (height : Nat) (nonce : γ.N) (proof : γ.P)
  | SubmitResult (code : Code) (message : Option (List Nat))
  | ProofRate (rate : Nat)
  | Canary

/-- message.rs 57-68: the wire id of each message kind. -/
def idOf {γ : Collab} : ProverMessage γ → Nat
  | .Authorize .. => 0
  | .AuthorizeResult .. => 1
  | .Notify .. => 2
  | .Submit .. => 3
  | .SubmitResult .. => 4
  | .ProofRate .. => 6
  | .Canary => 5

/-- bincode string serialization: u64 little-endian length, then the bytes. -/
def bincodeStr (s : List Nat) : List Nat := leBytes 8 s.length ++ s

/-- Optional-message encoding on the binary path: a presence flag byte, then
the bincode string when present (message.rs 124-129). -/
def optBincodeStr : Option (List Nat) → List Nat
  | some s => 1 :: bincodeStr s
  | none => [0]

/-- Optional-message encoding on the JSON path: a presence flag byte, then
the JSON string when present (message.rs 149-154). -/
def optJsonStr : Option (List Nat) → List Nat
  | some s => 1 :: jsonString s
  | none => [0]

/-- Boolean flag byte (message.rs 95-98). -/
def boolByte (b : Bool) : List Nat := if b then [1] else [0]

/-- message.rs 84-134 `serialize_into`: the binary payload writer. -/
def serializeInto {γ : Collab} : ProverMessage γ → List Nat
  | .Authorize a w p v =>
      bincodeStr a ++ (bincodeStr w ++ (bincodeStr p ++ bincodeStr (decDigits v)))
  | .AuthorizeResult r msg => boolByte r ++ optBincodeStr msg
  | .Notify t tgt => γ.ct.emitLe t ++ leBytes 8 tgt
  | .Submit h n p => leBytes 4 h ++ (γ.cn.emitLe n ++ γ.cp.emitLe p)
  | .ProofRate r => leBytes 8 r
  | .SubmitResult c msg => leBytes 4 (codeIdx c) ++ optBincodeStr msg
  | .Canary => []

/-- message.rs 137-181 `serialize_into_json`: the hybrid text payload writer.
The version field is written as its decimal string. -/
def serializeIntoJson {γ : Collab} : ProverMessage γ → List Nat
  | .Authorize a w p v =>
      91 :: (jsonString a ++ (44 :: (jsonString w ++ (44 ::
        (jsonString p ++ (44 :: (jsonString (decDigits v) ++ [93])))))))
  | .AuthorizeResult r msg => boolByte r ++ optJsonStr msg
  | .Notify t tgt => 91 :: (γ.ct.emitJson t ++ (44 :: (decDigits tgt ++ [93])))
  | .Submit h n p =>
      91 :: (decDigits h ++ (44 :: (γ.cn.emitJson n ++ (44 :: (γ.cp.emitJson p ++ [93])))))
  | .ProofRate r => decDigits r
  | .SubmitResult c msg => jsonCode c ++ optJsonStr msg
  | .Canary => []

/-- Decode-side error taxonomy.  `unknownId` models the
"Unknown message id" error; `tooLong` the "Message too long" framing error;
`eof` an out-of-input read; `parseFail` a malformed payload value;
`trailing` serde_json's trailing-characters error. -/
inductive DErr where
  | eof
  | unknownId (i : Nat)
  | parseFail
  | trailing
  | tooLong
  deriving DecidableEq

/-- Outcome of a payload deserializer: a message, an error, or a Rust panic
(reachable through the `unwrap` calls on version parsing). -/
inductive POut (γ : Collab) where
  | ok (m : ProverMessage γ)
  | err (e : DErr)
  | panicked

/-- Read one byte (`read_u8`). -/
def readU8 : List Nat → Option (Nat × List Nat)
  | [] => none
  | b :: r => some (b, r)

/-- Read a `k`-byte little-endian integer (`read_u32`/`read_u64` with
`LittleEndian`). -/
def readLeNat : Nat → List Nat → Option (Nat × List Nat)
  | 0, l => some (0, l)
  | _ + 1, [] => none
  | k + 1, b :: r =>
    match readLeNat k r with
    | none => none
    | some (v, rest) => some (b + 256 * v, rest)

/-- Read exactly `k` bytes. -/
def readN (k : Nat) (l : List Nat) : Option (List Nat × List Nat) :=
  if l.length < k then none else some (l.take k, l.drop k)

/-- bincode string deserialization: u64 length prefix, then that many bytes. -/
def readBincodeStr (l : List Nat) : Option (List Nat × List Nat) :=
  match readLeNat 8 l with
  | none => none
  | some (n, r) => readN n r

/-- message.rs 184-230 `deserialize`: the binary payload reader.  The id 0
branch panics (`unwrap`) when the received version string is not a valid u16. -/
def deserialize (γ : Collab) (l : List Nat) : POut γ :=
  match readU8 l with
  | none => .err .eof
  | some (i, r0) =>
    if i = 0 then
      match readBincodeStr r0 with
      | none => .err .eof
      | some (a, r1) =>
      match readBincodeStr r1 with
      | none => .err .eof
      | some (w, r2) =>
      match readBincodeStr r2 with
      | none => .err .eof
      | some (p, r3) =>
      match readBincodeStr r3 with
      | none => .err .eof
      | some (v, _r4) =>
      match parseU16Str v with
      | some ver => .ok (.Authorize a w p ver)
      | none => .panicked
    else if i = 1 then
      match readU8 r0 with
      | none => .err .eof
      | some (rb, r1) =>
      match readU8 r1 with
      | none => .err .eof
      | some (flag, r2) =>
      if flag = 1 then
        match readBincodeStr r2 with
        | none => .err .eof
        | some (s, _r3) => .ok (.AuthorizeResult (rb == 1) (some s))
      else .ok (.AuthorizeResult (rb == 1) none)
    else if i = 2 then
      match γ.ct.parseLe r0 with
      | none => .err .parseFail
      | some (t, r1) =>
      match readLeNat 8 r1 with
      | none => .err .eof
      | some (tgt, _r2) => .ok (.Notify t tgt)
    else if i = 3 then
      match readLeNat 4 r0 with
      | none => .err .eof
      | some (h, r1) =>
      match γ.cn.parseLe r1 with
      | none => .err .parseFail
      | some (n, r2) =>
      match γ.cp.parseLe r2 with
      | none => .err .parseFail
      | some (pf, _r3) => .ok (.Submit h n pf)
    else if i = 4 then
      match readLeNat 4 r0 with
      | none => .err .eof
      | some (tag, r1) =>
      match codeOfIdx tag with
      | none => .err .parseFail
      | some c =>
      match readU8 r1 with
      | none => .err .eof
      | some (flag, r2) =>
      if flag = 1 then
        match readBincodeStr r2 with
        | none => .err .eof
        | some (s, _r3) => .ok (.SubmitResult c (some s))
      else .ok (.SubmitResult c none)
    else .err (.unknownId i)

/-- serde_json `from_reader` on a streaming parser: one value, then the
stream must be exhausted (trailing bytes raise the trailing-characters
error). -/
def fromReader {α : Type} (p : List Nat → Option (α × List Nat))
    (l : List Nat) : Except DErr α :=
  match p l with
  | none => .error .parseFail
  | some (a, rest) => if rest.isEmpty then .ok a else .error .trailing

/-- Streaming parse of the Authorize JSON payload, a 4-tuple of strings. -/
def parseTuple4Str (l : List Nat) :
    Option ((List Nat × List Nat × List Nat × List Nat) × List Nat) :=
  match expectByte 91 l with
  | none => none
  | some r0 =>
  match parseJsonStr r0 with
  | none => none
  | some (a, r1) =>
  match expectByte 44 r1 with
  | none => none
  | some r2 =>
  match parseJsonStr r2 with
  | none => none
  | some (w, r3) =>
  match expectByte 44 r3 with
  | none => none
  | some r4 =>
  match parseJsonStr r4 with
  | none => none
  | some (p, r5) =>
  match expectByte 44 r5 with
  | none => none
  | some r6 =>
  match parseJsonStr r6 with
  | none => none
  | some (v, r7) =>
  match expectByte 93 r7 with
  | none => none
  | some r8 => some ((a, w, p, v), r8)

/-- Streaming parse of the Notify JSON payload, a (template, u64) pair. -/
def parseNotifyPayload (γ : Collab) (l : List Nat) : Option ((γ.T × Nat) × List Nat) :=
  match expectByte 91 l with
  | none => none
  | some r0 =>
  match γ.ct.parseJson r0 with
  | none => none
  | some (t, r1) =>
  match expectByte 44 r1 with
  | none => none
  | some r2 =>
  match parseDecLt (2 ^ 64) r2 with
  | none => none
  | some (tgt, r3) =>
  match expectByte 93 r3 with
  | none => none
  | some r4 => some ((t, tgt), r4)

/-- Streaming parse of the Submit JSON payload, a (u32, nonce, proof)
triple. -/
def parseSubmitPayload (γ : Collab) (l : List Nat) :
    Option ((Nat × γ.N × γ.P) × List Nat) :=
  match expectByte 91 l with
  | none => none
  | some r0 =>
  match parseDecLt (2 ^ 32) r0 with
  | none => none
  | some (h, r1) =>
  match expectByte 44 r1 with
  | none => none
  | some r2 =>
  match γ.cn.parseJson r2 with
  | none => none
  | some (n, r3) =>
  match expectByte 44 r3 with
  | none => none
  | some r4 =>
  match γ.cp.parseJson r4 with
  | none => none
  | some (pf, r5) =>
  match expectByte 93 r5 with
  | none => none
  | some r6 => some ((h, n, pf), r6)

/-- Streaming parse of a JSON-encoded `Code`. -/
def parseCodeJson (l : List Nat) : Option (Code × List Nat) :=
  match parseJsonStr l with
  | none => none
  | some (s, r) =>
    match codeOfName s with
    | none => none
    | some c => some (c, r)

/-- message.rs 233-274 `deserialize_json`: the hybrid text payload reader.
The id 0 branch panics (`unwrap`) on a non-u16 version string; in the id 4
branch the leading `from_reader` either fails on the trailing flag byte or,
when the payload is exactly the code, leaves the reader exhausted so that the
following `read_u8` fails - the branch can never succeed. -/
def deserializeJson (γ : Collab) (l : List Nat) : POut γ :=
  match readU8 l with
  | none => .err .eof
  | some (i, r0) =>
    if i = 0 then
      match fromReader parseTuple4Str r0 with
      | .error e => .err e
      | .ok (a, w, p, v) =>
        match parseU16Str v with
        | some ver => .ok (.Authorize a w p ver)
        | none => .panicked
    else if i = 1 then
      match readU8 r0 with
      | none => .err .eof
      | some (rb, r1) =>
      match readU8 r1 with
      | none => .err .eof
      | some (flag, r2) =>
      if flag = 1 then
        match fromReader parseJsonStr r2 with
        | .error e => .err e
        | .ok s => .ok (.AuthorizeResult (rb == 1) (some s))
      else .ok (.AuthorizeResult (rb == 1) none)
    else if i = 2 then
      match fromReader (parseNotifyPayload γ) r0 with
      | .error e => .err e
      | .ok (t, tgt) => .ok (.Notify t tgt)
    else if i = 3 then
      match fromReader (parseSubmitPayload γ) r0 with
      | .error e => .err e
      | .ok (h, n, pf) => .ok (.Submit h n pf)
    else if i = 4 then
      match fromReader parseCodeJson r0 with
      | .error e => .err e
      | .ok _c => .err .eof
    else .err (.unknownId i)

/-- message.rs 286-289: the encoder's payload format dispatch - binary only
for `ProofRate`, hybrid text for every other variant. -/
def payloadOf {γ : Collab} (m : ProverMessage γ) : List Nat :=
  match m with
  | .ProofRate _ => serializeInto m
  | _ => serializeIntoJson m

/-- Frame a body: 4-byte little-endian length prefix (truncated like the
`as u32` cast), then the body. -/
def frameOf (body : List Nat) : List Nat := leBytes 4 body.length ++ body

/-- message.rs 280-298 `encode`: length placeholder, id byte, payload in the
dispatched format, backpatched length counting the id byte and payload. -/
def encode {γ : Collab} (m : ProverMessage γ) : List Nat :=
  frameOf (idOf m :: payloadOf m)

/-- Result of one `decode` call on the accumulating buffer. -/
inductive DecRes (γ : Collab) where
  | needMore
  | ok (m : ProverMessage γ)
  | err (e : DErr)
  | panicked

/-- message.rs 305-332 `decode`: returns the call's outcome together with the
buffer contents after the call.  Needs 4 buffered bytes for the length, then
rejects a declared length above 128 MiB without consuming anything, then
waits for the full frame; the `src[4..5]` slice panics on an exactly-4-byte
buffer declaring length 0; otherwise the payload parser selected by the id
byte runs on the frame and `src.advance(4 + length)` consumes the frame
whether or not it parsed. -/
def decode (γ : Collab) (src : List Nat) : DecRes γ × List Nat :=
  if src.length < 4 then (.needMore, src)
  else if leNat (src.take 4) > 134217728 then (.err .tooLong, src)
  else if src.length < 4 + leNat (src.take 4) then (.needMore, src)
  else if src.length < 5 then (.panicked, src)
  else
    match (if (src.drop 4).headD 0 = 4
           then deserialize γ ((src.drop 4).take (leNat (src.take 4)))
           else deserializeJson γ ((src.drop 4).take (leNat (src.take 4)))) with
    | .ok m => (.ok m, src.drop (4 + leNat (src.take 4)))
    | .err e => (.err e, src.drop (4 + leNat (src.take 4)))
    | .panicked => (.panicked, src)

/-- Modelled from the spec: the external prover event type
(`crate::prover::ProverEvent`, not under src/).  The spec's inbound event
interface defines a "new work" event carrying the pool target and the opaque
work template, and a "submission result" event carrying a success boolean and
an optional reason; the client.rs call sites construct exactly
`ProverEvent::NewWork(pool_target, block_template)` and
`ProverEvent::Result(bool, message)`. -/
inductive ProverEvent (γ : Collab) where
  | NewWork (poolTarget : Nat) (template : γ.T)
  | Result (success : Bool) (reason : Option (List Nat))

/-- One item yielded by the framed inbound stream in the Active loop:
a decoded message, a stream-level decode error, or end-of-stream. -/
inductive NetEvent (γ : Collab) where
  | msg (m : ProverMessage γ)
  | decodeErr (e : DErr)
  | eof

/-- What the inbound branch of the select loop does with one stream item:
emit events and keep looping, or emit events and break out of the session
loop (returning to the Connecting state). -/
inductive LoopAction (γ : Collab) where
  | keepGoing (events : List (ProverEvent γ))
  | breakLoop (events : List (ProverEvent γ))

/-- client.rs 88-139: the inbound arm of the Active-state select loop.
`AuthorizeResult(false, _)` breaks (reconnect after sleep) whenever it
arrives; `Notify` forwards a NewWork event; `SubmitResult` forwards a Result
event unless the code is `ProxyException`; other messages are logged and
dropped; a stream error (`Some(Err(e))`, line 131-133) is logged as a warning
and the loop continues; end-of-stream breaks. -/
def handleInbound {γ : Collab} : NetEvent γ → LoopAction γ
  | .msg m =>
    match m with
    | .AuthorizeResult r _msg => if r then .keepGoing [] else .breakLoop []
    | .Notify t tgt => .keepGoing [.NewWork tgt t]
    | .SubmitResult c msg =>
      match c with
      | .ProxyException => .keepGoing []
      | _ => .keepGoing [.Result (decide (Code.Success = c)) msg]
    | _ => .keepGoing []
  | .decodeErr _e => .keepGoing []
  | .eof => .breakLoop []

/-- Run the inbound arm over a list of stream items, collecting the emitted
prover events and whether the session loop was broken before the items ran
out. -/
def runInbound {γ : Collab} : List (NetEvent γ) → List (ProverEvent γ) × Bool
  | [] => ([], false)
  | e :: rest =>
    match handleInbound e with
    | .keepGoing evs =>
      let r := runInbound rest
      (evs ++ r.1, r.2)
    | .breakLoop evs => (evs, true)

/-- client.rs 77: `while receiver.try_recv().is_ok() {}` - pop queued
messages until `try_recv` fails, i.e. until the queue is empty; returns the
queue contents left when the loop exits. -/
def drainLoop {γ : Collab} : List (ProverMessage γ) → List (ProverMessage γ)
  | [] => []
  | _ :: q => drainLoop q

/-- Outbound wire traffic of one authenticated session: the select loop pops
the queue FIFO, so over a session in which `arrivals` are enqueued after the
drain and every queued message is eventually popped and sent, the wire
receives whatever survived the drain followed by the arrivals. -/
def postHandshakeSends {γ : Collab} (q arrivals : List (ProverMessage γ)) :
    List (ProverMessage γ) :=
  drainLoop q ++ arrivals

/-- Trivial witness instance of the opaque codec contract, used to
instantiate theorems at concrete inputs. -/
def unitCodec : OpaqueCodec Unit where
  emitLe := fun _ => [7]
  parseLe := fun l =>
    match l with
    | [] => none
    | b :: r => if b = 7 then some ((), r) else none
  emitJson := fun _ => [48]
  parseJson := fun l =>
    match l with
    | [] => none
    | b :: r => if b = 48 then some ((), r) else none

/-- Witness collaborator bundle with all three opaque types trivial. -/
def unitCollab : Collab where
  T := Unit
  N := Unit
  P := Unit
  ct := unitCodec
  cn := unitCodec
  cp := unitCodec

/-! ## Arithmetic and list groundwork -/

theorem mod_mul_decomp (n a b : Nat) (ha : 0 < a) :
    n % (a * b) = a * (n / a % b) + n % a := by
  rcases Nat.eq_zero_or_pos b with hb | hb
  · subst hb
    simp only [Nat.mul_zero, Nat.mod_zero]
    exact (Nat.div_add_mod n a).symm
  · have hx : n % a < a := Nat.mod_lt _ ha
    have hy : n / a % b < b := Nat.mod_lt _ hb
    have hlt : a * (n / a % b) + n % a < a * b := by
      have h1 : a * (n / a % b) + n % a < a * (n / a % b) + a :=
        Nat.add_lt_add_left hx _
      have h2 : a * (n / a % b) + a = a * (n / a % b + 1) := by ring
      have h3 : a * (n / a % b + 1) ≤ a * b :=
        Nat.mul_le_mul_left a (Nat.succ_le_of_lt hy)
      omega
    have h1 : n = a * (n / a % b) + n % a + a * b * (n / a / b) := by
      conv_lhs => rw [← Nat.div_add_mod n a]
      conv_lhs => rw [← Nat.div_add_mod (n / a) b]
      ring
    conv_lhs => rw [h1]
    rw [Nat.add_mul_mod_self_left]
    exact Nat.mod_eq_of_lt hlt

theorem leBytes_length (k n : Nat) : (leBytes k n).length = k := by
  induction k generalizing n with
  | zero => simp [leBytes]
  | succ k ih => simp [leBytes, ih]

theorem leNat_leBytes (k n : Nat) : leNat (leBytes k n) = n % 2 ^ (8 * k) := by
  induction k generalizing n with
  | zero => simp [leBytes, leNat, Nat.mod_one]
  | succ k ih =>
    rw [leBytes, leNat, ih]
    have h2 : 2 ^ (8 * (k + 1)) = 256 * 2 ^ (8 * k) := by ring
    rw [h2, mod_mul_decomp n 256 (2 ^ (8 * k)) (by norm_num)]
    omega

theorem leNat_leBytes_lt (k n : Nat) (h : n < 2 ^ (8 * k)) :
    leNat (leBytes k n) = n := by
  rw [leNat_leBytes]
  exact Nat.mod_eq_of_lt h

theorem takeWhile_app_all (p : Nat → Bool) : ∀ (xs ys : List Nat),
    (∀ b ∈ xs, p b = true) →
    (xs ++ ys).takeWhile p = xs ++ ys.takeWhile p ∧
      (xs ++ ys).dropWhile p = ys.dropWhile p
  | [], _, _ => by simp
  | b :: t, ys, h => by
    have hb : p b = true := h b (by simp)
    have iht := takeWhile_app_all p t ys (fun x hx => h x (by simp [hx]))
    simp [List.takeWhile_cons, List.dropWhile_cons, hb, iht.1, iht.2]

theorem headNotDigit_stops (l : List Nat) (h : HeadNotDigit l) :
    l.takeWhile isDigitB = [] ∧ l.dropWhile isDigitB = l := by
  cases l with
  | nil => simp
  | cons b t =>
    have hb : isDigitB b = false := h
    simp [List.takeWhile_cons, List.dropWhile_cons, hb]

/-! ## Decimal digit strings -/

theorem decAux_props : ∀ (fuel n : Nat), n < fuel →
    (∀ b ∈ decAux fuel n, isDigitB b = true) ∧
      decValue (decAux fuel n) = n ∧ decAux fuel n ≠ [] := by
  intro fuel
  induction fuel with
  | zero => intro n h; exact absurd h (Nat.not_lt_zero n)
  | succ fuel ih =>
    intro n h
    by_cases h10 : n < 10
    · have hstep : decAux (fuel + 1) n = [48 + n] := by
        simp [decAux, h10]
      refine ⟨?_, ?_, ?_⟩
      · intro b hb
        rw [hstep] at hb
        simp at hb
        subst hb
        simp only [isDigitB, decide_eq_true_eq]
        omega
      · rw [hstep]
        show List.foldl (fun acc d => 10 * acc + (d - 48)) 0 [48 + n] = n
        simp [List.foldl]
      · rw [hstep]
        simp
    · have hdiv : n / 10 < fuel := by omega
      obtain ⟨ihd, ihv, ihne⟩ := ih (n / 10) hdiv
      have hstep : decAux (fuel + 1) n = decAux fuel (n / 10) ++ [48 + n % 10] := by
        simp [decAux, h10]
      refine ⟨?_, ?_, ?_⟩
      · intro b hb
        rw [hstep] at hb
        rcases List.mem_append.mp hb with hb | hb
        · exact ihd b hb
        · simp at hb
          subst hb
          simp only [isDigitB, decide_eq_true_eq]
          omega
      · rw [hstep]
        show List.foldl (fun acc d => 10 * acc + (d - 48)) 0
            (decAux fuel (n / 10) ++ [48 + n % 10]) = n
        rw [List.foldl_append]
        have hv : List.foldl (fun acc d => 10 * acc + (d - 48)) 0
            (decAux fuel (n / 10)) = n / 10 := ihv
        rw [hv]
        simp [List.foldl]
        omega
      · rw [hstep]
        simp

theorem decDigits_digits (n : Nat) : ∀ b ∈ decDigits n, isDigitB b = true :=
  (decAux_props (n + 1) n (by omega)).1

theorem decValue_decDigits (n : Nat) : decValue (decDigits n) = n :=
  (decAux_props (n + 1) n (by omega)).2.1

theorem decDigits_ne_nil (n : Nat) : decDigits n ≠ [] :=
  (decAux_props (n + 1) n (by omega)).2.2

theorem parseDec_app (n : Nat) (rest : List Nat) (h : HeadNotDigit rest) :
    parseDec (decDigits n ++ rest) = some (n, rest) := by
  have h1 := takeWhile_app_all isDigitB (decDigits n) rest (decDigits_digits n)
  have h2 := headNotDigit_stops rest h
  rw [parseDec, h1.1, h1.2, h2.1, h2.2, List.append_nil]
  rw [if_neg (by simp [decDigits_ne_nil n])]
  rw [decValue_decDigits]

theorem parseDecLt_app (bound n : Nat) (rest : List Nat) (h : HeadNotDigit rest)
    (hn : n < bound) : parseDecLt bound (decDigits n ++ rest) = some (n, rest) := by
  rw [parseDecLt, parseDec_app n rest h]
  simp [hn]

theorem parseU16Core_of_digits (s : List Nat) (hne : s ≠ [])
    (hall : ∀ b ∈ s, isDigitB b = true) (hv : decValue s < 65536) :
    parseU16Core s = some (decValue s) := by
  rw [parseU16Core]
  rw [if_neg (by simp [hne])]
  rw [if_pos (List.all_eq_true.mpr hall), if_pos hv]

theorem parseU16Str_of_digits (s : List Nat) (hne : s ≠ [])
    (hall : ∀ b ∈ s, isDigitB b = true) (hv : decValue s < 65536) :
    parseU16Str s = some (decValue s) := by
  obtain ⟨b, t, rfl⟩ := List.exists_cons_of_ne_nil hne
  have hb : isDigitB b = true := hall b (by simp)
  have hb43 : ¬ b = 43 := by
    simp only [isDigitB, decide_eq_true_eq] at hb
    omega
  rw [parseU16Str]
  simp only [hb43, if_false]
  exact parseU16Core_of_digits _ hne hall hv

theorem parseU16Str_decDigits (v : Nat) (hv : v < 65536) :
    parseU16Str (decDigits v) = some v := by
  have h := parseU16Str_of_digits (decDigits v) (decDigits_ne_nil v)
    (decDigits_digits v) (by rw [decValue_decDigits]; exact hv)
  rwa [decValue_decDigits] at h

/-! ## JSON string escaping round-trip -/

theorem hexVal_hexDigit (d : Nat) (h : d < 16) : hexVal (hexDigit d) = some d := by
  interval_cases d <;> decide

theorem parseStrBody_quote (rest : List Nat) :
    parseStrBody (34 :: rest) = some ([], rest) := by
  rw [parseStrBody.eq_def]
  simp

theorem parseStrBody_esc (e : Nat) (rest : List Nat) (he : ¬ e = 117) :
    parseStrBody (92 :: e :: rest)
      = (match escCode e with
         | some c => consFst c (parseStrBody rest)
         | none => none) := by
  rw [parseStrBody.eq_def]
  simp [he]

theorem parseStrBody_u (h3 h4 : Nat) (rest : List Nat) :
    parseStrBody (92 :: 117 :: 48 :: 48 :: h3 :: h4 :: rest)
      = (match hexVal h3, hexVal h4 with
         | some x, some y => consFst (16 * x + y) (parseStrBody rest)
         | _, _ => none) := by
  rw [parseStrBody.eq_def]
  simp

theorem parseStrBody_raw (b : Nat) (rest : List Nat) (h34 : ¬ b = 34)
    (h92 : ¬ b = 92) (hc : ¬ b < 32) :
    parseStrBody (b :: rest) = consFst b (parseStrBody rest) := by
  rw [parseStrBody.eq_def]
  simp [h34, h92, hc]

theorem parseStrBody_app : ∀ (s rest : List Nat),
    parseStrBody (escString s ++ (34 :: rest)) = some (s, rest)
  | [], rest => by
    simp only [escString, List.nil_append]
    exact parseStrBody_quote rest
  | b :: t, rest => by
    have ih := parseStrBody_app t rest
    have happ : escString (b :: t) ++ (34 :: rest)
        = escapeByte b ++ (escString t ++ (34 :: rest)) := by
      simp [escString]
    rw [happ]
    by_cases h34 : b = 34
    · subst h34
      simp [escapeByte, parseStrBody_esc, escCode, consFst, ih]
    · by_cases h92 : b = 92
      · subst h92
        simp [escapeByte, parseStrBody_esc, escCode, consFst, ih]
      · by_cases h8 : b = 8
        · subst h8
          simp [escapeByte, parseStrBody_esc, escCode, consFst, ih]
        · by_cases h9 : b = 9
          · subst h9
            simp [escapeByte, parseStrBody_esc, escCode, consFst, ih]
          · by_cases h10 : b = 10
            · subst h10
              simp [escapeByte, parseStrBody_esc, escCode, consFst, ih]
            · by_cases h12 : b = 12
              · subst h12
                simp [escapeByte, parseStrBody_esc, escCode, consFst, ih]
              · by_cases h13 : b = 13
                · subst h13
                  simp [escapeByte, parseStrBody_esc, escCode, consFst, ih]
                · by_cases hc : b < 32
                  · have hx : hexVal (hexDigit (b / 16)) = some (b / 16) :=
                      hexVal_hexDigit _ (by omega)
                    have hy : hexVal (hexDigit (b % 16)) = some (b % 16) :=
                      hexVal_hexDigit _ (by omega)
                    have hb16 : 16 * (b / 16) + b % 16 = b := by omega
                    simp [escapeByte, h34, h92, h8, h9, h10, h12, h13, hc,
                      parseStrBody_u, hx, hy, hb16, consFst, ih]
                  · rw [show escapeByte b = [b] by
                      simp [escapeByte, h34, h92, h8, h9, h10, h12, h13, hc]]
                    rw [List.singleton_append,
                      parseStrBody_raw b _ h34 h92 hc, ih]
                    simp [consFst]

theorem parseJsonStr_app (s rest : List Nat) :
    parseJsonStr (jsonString s ++ rest) = some (s, rest) := by
  have h : jsonString s ++ rest = 34 :: (escString s ++ (34 :: rest)) := by
    simp [jsonString]
  rw [h]
  simp [parseJsonStr, parseStrBody_app]

theorem parseJsonStr_exact (s : List Nat) : parseJsonStr (jsonString s) = some (s, []) := by
  have h := parseJsonStr_app s []
  rwa [List.append_nil] at h

theorem expectByte_cons (b : Nat) (r : List Nat) : expectByte b (b :: r) = some r := by
  simp [expectByte]

/-! ## Binary (bincode / little-endian) read lemmas -/

theorem readLeNat_app : ∀ (k n : Nat) (rest : List Nat),
    readLeNat k (leBytes k n ++ rest) = some (n % 2 ^ (8 * k), rest)
  | 0, n, rest => by simp [leBytes, readLeNat, Nat.mod_one]
  | k + 1, n, rest => by
    have ih := readLeNat_app k (n / 256) rest
    simp only [leBytes, List.cons_append, readLeNat, List.append_eq, ih]
    have h2 : 2 ^ (8 * (k + 1)) = 256 * 2 ^ (8 * k) := by ring
    rw [h2, mod_mul_decomp n 256 (2 ^ (8 * k)) (by norm_num), Nat.add_comm]

theorem readLeNat_app_lt (k n : Nat) (rest : List Nat) (h : n < 2 ^ (8 * k)) :
    readLeNat k (leBytes k n ++ rest) = some (n, rest) := by
  rw [readLeNat_app, Nat.mod_eq_of_lt h]

theorem readN_app (xs ys : List Nat) : readN xs.length (xs ++ ys) = some (xs, ys) := by
  rw [readN, if_neg (by simp only [List.length_append]; omega)]
  rw [List.take_left, List.drop_left]

theorem readBincodeStr_app (s rest : List Nat) (h : s.length < 2 ^ 64) :
    readBincodeStr (bincodeStr s ++ rest) = some (s, rest) := by
  have h64 : s.length < 2 ^ (8 * 8) := by norm_num; omega
  have h1 : readLeNat 8 (leBytes 8 s.length ++ (s ++ rest)) = some (s.length, s ++ rest) :=
    readLeNat_app_lt 8 s.length (s ++ rest) h64
  rw [bincodeStr, List.append_assoc, readBincodeStr, h1]
  exact readN_app s rest

theorem readBincodeStr_exact (s : List Nat) (h : s.length < 2 ^ 64) :
    readBincodeStr (bincodeStr s) = some (s, []) := by
  have h1 := readBincodeStr_app s [] h
  rwa [List.append_nil] at h1

/-! ## Payload deserializer branch lemmas -/

theorem parseTuple4Str_ser (a w p vs : List Nat) :
    parseTuple4Str (91 :: (jsonString a ++ (44 :: (jsonString w ++ (44 ::
      (jsonString p ++ (44 :: (jsonString vs ++ [93]))))))))
      = some ((a, w, p, vs), []) := by
  simp only [parseTuple4Str, expectByte_cons, parseJsonStr_app]

theorem dsj_authorize (g : Collab) (a w p : List Nat) (v : Nat) (hv : v < 65536) :
    deserializeJson g (0 :: serializeIntoJson (γ := g) (.Authorize a w p v))
      = .ok (.Authorize a w p v) := by
  have hT := parseTuple4Str_ser a w p (decDigits v)
  simp [deserializeJson, serializeIntoJson, readU8, fromReader, hT,
    parseU16Str_decDigits v hv]

theorem dsj_authresult (g : Collab) (b : Bool) (s : Option (List Nat)) :
    deserializeJson g (1 :: serializeIntoJson (γ := g) (.AuthorizeResult b s))
      = .ok (.AuthorizeResult b s) := by
  cases b <;> cases s <;>
    simp [deserializeJson, serializeIntoJson, boolByte, optJsonStr, readU8,
      fromReader, parseJsonStr_exact]

theorem dsj_notify (g : Collab) (hct : g.ct.JsonRT) (t : g.T) (tgt : Nat)
    (htgt : tgt < 2 ^ 64) :
    deserializeJson g (2 :: serializeIntoJson (γ := g) (.Notify t tgt))
      = .ok (.Notify t tgt) := by
  have hblob := hct t (44 :: (decDigits tgt ++ [93]))
    (Or.inr (Or.inl ⟨decDigits tgt ++ [93], rfl⟩))
  have hdec := parseDecLt_app (2 ^ 64) tgt [93] (by simp [HeadNotDigit, isDigitB]) htgt
  norm_num at hdec
  simp [deserializeJson, serializeIntoJson, readU8, fromReader,
    parseNotifyPayload, expectByte_cons, hblob, hdec]

theorem dsj_submit (g : Collab) (hcn : g.cn.JsonRT) (hcp : g.cp.JsonRT)
    (h : Nat) (hh : h < 2 ^ 32) (n : g.N) (pf : g.P) :
    deserializeJson g (3 :: serializeIntoJson (γ := g) (.Submit h n pf))
      = .ok (.Submit h n pf) := by
  have hn := hcn n (44 :: (g.cp.emitJson pf ++ [93]))
    (Or.inr (Or.inl ⟨g.cp.emitJson pf ++ [93], rfl⟩))
  have hp := hcp pf [93] (Or.inr (Or.inr ⟨[], rfl⟩))
  have hdec := parseDecLt_app (2 ^ 32) h
    (44 :: (g.cn.emitJson n ++ (44 :: (g.cp.emitJson pf ++ [93]))))
    (by simp [HeadNotDigit, isDigitB]) hh
  norm_num at hdec
  simp [deserializeJson, serializeIntoJson, readU8, fromReader,
    parseSubmitPayload, expectByte_cons, hdec, hn, hp]

theorem dsj_unknown (g : Collab) (i : Nat) (payload : List Nat) (hi : 5 ≤ i) :
    deserializeJson g (i :: payload) = .err (.unknownId i) := by
  have h0 : ¬ i = 0 := by omega
  have h1 : ¬ i = 1 := by omega
  have h2 : ¬ i = 2 := by omega
  have h3 : ¬ i = 3 := by omega
  have h4 : ¬ i = 4 := by omega
  simp [deserializeJson, readU8, h0, h1, h2, h3, h4]

theorem codeIdx_lt (c : Code) : codeIdx c < 2 ^ (8 * 4) := by
  cases c <;> decide

theorem codeOfIdx_codeIdx (c : Code) : codeOfIdx (codeIdx c) = some c := by
  cases c <;> rfl

theorem readLeNat4_code (c : Code) (rest : List Nat) :
    readLeNat 4 (leBytes 4 (codeIdx c) ++ rest) = some (codeIdx c, rest) :=
  readLeNat_app_lt 4 (codeIdx c) rest (codeIdx_lt c)

theorem dser_submitresult (g : Collab) (c : Code) (msg : Option (List Nat))
    (hmsg : ∀ x, msg = some x → x.length < 2 ^ 64) :
    deserialize g (4 :: serializeInto (γ := g) (.SubmitResult c msg))
      = .ok (.SubmitResult c msg) := by
  cases msg with
  | none =>
    simp [deserialize, serializeInto, optBincodeStr, readU8, readLeNat4_code,
      codeOfIdx_codeIdx]
  | some s =>
    have hs := readBincodeStr_exact s (hmsg s rfl)
    simp [deserialize, serializeInto, optBincodeStr, readU8, readLeNat4_code,
      codeOfIdx_codeIdx, hs]

theorem readLeNat_four (b1 b2 b3 b4 : Nat) (rest : List Nat) :
    readLeNat 4 (b1 :: b2 :: b3 :: b4 :: rest)
      = some (b1 + 256 * (b2 + 256 * (b3 + 256 * (b4 + 256 * 0))), rest) := rfl

theorem dser_jsonSubmitResult (g : Collab) (c : Code) (msg : Option (List Nat)) :
    deserialize g (4 :: serializeIntoJson (γ := g) (.SubmitResult c msg))
      = .err .parseFail := by
  cases c <;>
    simp [deserialize, serializeIntoJson, jsonCode, codeName, jsonString,
      escString, escapeByte, hexDigit, readU8, readLeNat_four, codeOfIdx]

/-! ## Frame-level decode lemmas -/

theorem decode_frame (g : Collab) (body rest : List Nat) (hne : body ≠ [])
    (hlen : body.length ≤ 134217728) :
    decode g (leBytes 4 body.length ++ (body ++ rest)) =
      (match (if body.headD 0 = 4 then deserialize g body else deserializeJson g body) with
       | .ok m => (DecRes.ok m, rest)
       | .err e => (DecRes.err e, rest)
       | .panicked => (DecRes.panicked, leBytes 4 body.length ++ (body ++ rest))) := by
  have hlen4 : (leBytes 4 body.length).length = 4 := leBytes_length 4 _
  have hbpos : 0 < body.length := List.length_pos.mpr hne
  have hsrclen : (leBytes 4 body.length ++ (body ++ rest)).length
      = 4 + (body.length + rest.length) := by
    simp [List.length_append, hlen4]
  have htake : (leBytes 4 body.length ++ (body ++ rest)).take 4 = leBytes 4 body.length := by
    have h := List.take_left (leBytes 4 body.length) (body ++ rest)
    rwa [hlen4] at h
  have hpow : (134217728 : Nat) < 2 ^ (8 * 4) := by norm_num
  have hval : leNat ((leBytes 4 body.length ++ (body ++ rest)).take 4) = body.length := by
    rw [htake]
    exact leNat_leBytes_lt 4 _ (by omega)
  have hdrop4 : (leBytes 4 body.length ++ (body ++ rest)).drop 4 = body ++ rest := by
    have h := List.drop_left (leBytes 4 body.length) (body ++ rest)
    rwa [hlen4] at h
  have hhead : (body ++ rest).headD 0 = body.headD 0 := by
    cases body with
    | nil => exact absurd rfl hne
    | cons b bt => simp
  have htakeL : (body ++ rest).take body.length = body := List.take_left body rest
  have hdropL : (leBytes 4 body.length ++ (body ++ rest)).drop (4 + body.length) = rest := by
    rw [← List.drop_drop body.length 4 _, hdrop4, List.drop_left]
  simp only [decode]
  rw [if_neg (by rw [hsrclen]; omega)]
  rw [hval]
  rw [if_neg (by omega)]
  rw [if_neg (by rw [hsrclen]; omega)]
  rw [if_neg (by rw [hsrclen]; omega)]
  rw [hdrop4, hhead, htakeL, hdropL]

theorem decode_frame_ok (g : Collab) (body : List Nat) (m : ProverMessage g)
    (hne : body ≠ []) (hlen : body.length ≤ 134217728)
    (hdis : (if body.headD 0 = 4 then deserialize g body else deserializeJson g body)
      = .ok m) :
    decode g (frameOf body) = (.ok m, []) := by
  have h := decode_frame g body [] hne hlen
  rw [List.append_nil] at h
  rw [frameOf, h, hdis]

theorem decode_frame_err (g : Collab) (body : List Nat) (e : DErr)
    (hne : body ≠ []) (hlen : body.length ≤ 134217728)
    (hdis : (if body.headD 0 = 4 then deserialize g body else deserializeJson g body)
      = .err e) :
    decode g (frameOf body) = (.err e, []) := by
  have h := decode_frame g body [] hne hlen
  rw [List.append_nil] at h
  rw [frameOf, h, hdis]

theorem decode_frame_err_rest (g : Collab) (body rest : List Nat) (e : DErr)
    (hne : body ≠ []) (hlen : body.length ≤ 134217728)
    (hdis : (if body.headD 0 = 4 then deserialize g body else deserializeJson g body)
      = .err e) :
    decode g (frameOf body ++ rest) = (.err e, rest) := by
  have h := decode_frame g body rest hne hlen
  rw [frameOf, List.append_assoc, h, hdis]

/-! ## Contract instances for the witness collaborator bundle -/

theorem unitCodec_jsonRT : unitCodec.JsonRT := by
  intro a rest _h
  cases a
  simp [unitCodec, OpaqueCodec.JsonRT]

/-! ## Claim theorems -/

/-- C1 counterexample: the claim "decode(encode(m)) == m for this codec's own
encode/decode pair, in particular for SubmitResult and ProofRate" is false at
the concrete message `ProofRate 1`: the encoder emits kind id 6 in the binary
format, but the decoder parses id 6 with the hybrid-text reader, which
rejects it as an unknown message id. -/
theorem c1_counterexample :
    decode unitCollab (encode (γ := unitCollab) (.ProofRate 1))
      ≠ (.ok (.ProofRate 1), []) := by
  intro hEq
  have hval : decode unitCollab (encode (γ := unitCollab) (.ProofRate 1))
      = (.err (.unknownId 6), []) := rfl
  rw [hval] at hEq
  injection hEq with h1 h2
  cases h1

/-- C1 (amended): under the codec's own encode/decode pair the round-trip
`decode (encode m) = m` holds exactly for `Authorize`, `AuthorizeResult`,
`Notify` and `Submit` (with the frame fully consumed); for `SubmitResult` the
JSON-encoded payload fails the decoder's binary parser, and for `ProofRate`
and `Canary` the decoder reports an unknown message id, so the round-trip
fails for those three kinds. -/
theorem c1_roundtrip_amended (g : Collab)
    (hct : g.ct.JsonRT) (hcn : g.cn.JsonRT) (hcp : g.cp.JsonRT)
    (a w p : List Nat) (v : Nat) (hv : v < 65536)
    (b : Bool) (s : Option (List Nat))
    (t : g.T) (tgt : Nat) (htgt : tgt < 2 ^ 64)
    (hgt : Nat) (hhgt : hgt < 2 ^ 32) (n : g.N) (pf : g.P)
    (c : Code) (msg : Option (List Nat)) (r : Nat)
    (hA : (serializeIntoJson (γ := g) (.Authorize a w p v)).length < 134217728)
    (hB : (serializeIntoJson (γ := g) (.AuthorizeResult b s)).length < 134217728)
    (hN : (serializeIntoJson (γ := g) (.Notify t tgt)).length < 134217728)
    (hS : (serializeIntoJson (γ := g) (.Submit hgt n pf)).length < 134217728)
    (hR : (serializeIntoJson (γ := g) (.SubmitResult c msg)).length < 134217728) :
    decode g (encode (γ := g) (.Authorize a w p v)) = (.ok (.Authorize a w p v), [])
    ∧ decode g (encode (γ := g) (.AuthorizeResult b s)) = (.ok (.AuthorizeResult b s), [])
    ∧ decode g (encode (γ := g) (.Notify t tgt)) = (.ok (.Notify t tgt), [])
    ∧ decode g (encode (γ := g) (.Submit hgt n pf)) = (.ok (.Submit hgt n pf), [])
    ∧ decode g (encode (γ := g) (.SubmitResult c msg)) = (.err .parseFail, [])
    ∧ decode g (encode (γ := g) (.ProofRate r)) = (.err (.unknownId 6), [])
    ∧ decode g (encode (γ := g) (.Canary)) = (.err (.unknownId 5), []) := by
  refine ⟨?_, ?_, ?_, ?_, ?_, ?_, ?_⟩
  · show decode g (frameOf (0 :: serializeIntoJson (γ := g) (.Authorize a w p v))) = _
    exact decode_frame_ok g _ _ (by simp) (by simp only [List.length_cons]; omega)
      (by rw [List.headD_cons, if_neg (by decide)]; exact dsj_authorize g a w p v hv)
  · show decode g (frameOf (1 :: serializeIntoJson (γ := g) (.AuthorizeResult b s))) = _
    exact decode_frame_ok g _ _ (by simp) (by simp only [List.length_cons]; omega)
      (by rw [List.headD_cons, if_neg (by decide)]; exact dsj_authresult g b s)
  · show decode g (frameOf (2 :: serializeIntoJson (γ := g) (.Notify t tgt))) = _
    exact decode_frame_ok g _ _ (by simp) (by simp only [List.length_cons]; omega)
      (by rw [List.headD_cons, if_neg (by decide)]; exact dsj_notify g hct t tgt htgt)
  · show decode g (frameOf (3 :: serializeIntoJson (γ := g) (.Submit hgt n pf))) = _
    exact decode_frame_ok g _ _ (by simp) (by simp only [List.length_cons]; omega)
      (by rw [List.headD_cons, if_neg (by decide)]; exact dsj_submit g hcn hcp hgt hhgt n pf)
  · show decode g (frameOf (4 :: serializeIntoJson (γ := g) (.SubmitResult c msg))) = _
    exact decode_frame_err g _ _ (by simp) (by simp only [List.length_cons]; omega)
      (by rw [List.headD_cons, if_pos rfl]; exact dser_jsonSubmitResult g c msg)
  · show decode g (frameOf (6 :: serializeInto (γ := g) (.ProofRate r))) = _
    exact decode_frame_err g _ _ (by simp)
      (by simp only [serializeInto, List.length_cons, leBytes_length]; omega)
      (by rw [List.headD_cons, if_neg (by decide)]; exact dsj_unknown g 6 _ (by omega))
  · show decode g (frameOf (5 :: serializeIntoJson (γ := g) (.Canary))) = _
    exact decode_frame_err g _ _ (by simp)
      (by simp only [serializeIntoJson, List.length_cons, List.length_nil]; omega)
      (by rw [List.headD_cons, if_neg (by decide)]; exact dsj_unknown g 5 _ (by omega))

/-- C1 witness: the amended theorem applied at concrete messages over the
trivial collaborator bundle. -/
theorem c1_witness :
    decode unitCollab (encode (γ := unitCollab) (.Authorize [97] [119] [] 1))
      = (.ok (.Authorize [97] [119] [] 1), [])
    ∧ decode unitCollab (encode (γ := unitCollab) (.AuthorizeResult true (some [104])))
      = (.ok (.AuthorizeResult true (some [104])), [])
    ∧ decode unitCollab (encode (γ := unitCollab) (.Notify () 5000))
      = (.ok (.Notify () 5000), [])
    ∧ decode unitCollab (encode (γ := unitCollab) (.Submit 100 () ()))
      = (.ok (.Submit 100 () ()), [])
    ∧ decode unitCollab (encode (γ := unitCollab) (.SubmitResult .Success none))
      = (.err .parseFail, [])
    ∧ decode unitCollab (encode (γ := unitCollab) (.ProofRate 7))
      = (.err (.unknownId 6), [])
    ∧ decode unitCollab (encode (γ := unitCollab) (.Canary))
      = (.err (.unknownId 5), []) :=
  c1_roundtrip_amended unitCollab unitCodec_jsonRT unitCodec_jsonRT unitCodec_jsonRT
    [97] [119] [] 1 (by decide) true (some [104]) () 5000 (by decide)
    100 (by decide) () () .Success none 7
    (by decide) (by decide) (by decide) (by decide) (by decide)

/-- C2 counterexample: the claim that a framing error (oversized declared
length) makes the Connection Manager abandon the connection and return to
Connecting is false: the inbound arm of the Active loop handles a
stream-level error (client.rs 131-133) by logging and continuing, not by
breaking. -/
theorem c2_counterexample :
    handleInbound (γ := unitCollab) (.decodeErr .tooLong) = .keepGoing []
    ∧ handleInbound (γ := unitCollab) (.decodeErr .tooLong) ≠ .breakLoop [] := by
  refine ⟨rfl, ?_⟩
  intro h
  rw [show handleInbound (γ := unitCollab) (.decodeErr .tooLong)
      = LoopAction.keepGoing [] from rfl] at h
  cases h

/-- C2 (amended): the decoder surfaces an oversized declared length as a
stream-level `tooLong` error without consuming the buffer, but the Connection
Manager logs any stream-level decode error as a warning and keeps reading on
the same connection; only end-of-stream (or a failed handshake reply) breaks
out of the session loop towards reconnection. -/
theorem c2_framing_error_keeps_connection (g : Collab) (e : DErr) :
    handleInbound (γ := g) (.decodeErr e) = .keepGoing []
    ∧ handleInbound (γ := g) (.eof) = .breakLoop []
    ∧ decode g [1, 0, 0, 8] = (.err .tooLong, [1, 0, 0, 8]) :=
  ⟨rfl, rfl, rfl⟩

/-- C3: the decoder selects the binary payload format only for kind id 4
(SubmitResult) and the hybrid text format for every other recognized id, while
the encoder uses the binary format only for ProofRate (id 6, fixed-width
little-endian) and the hybrid text format otherwise; the decoder's choice for
an id is independent of the encoder's - an encoder-produced id 6 frame is
parsed with the text reader and rejected. -/
theorem c3_format_selection (g : Collab)
    (hct : g.ct.JsonRT) (hcn : g.cn.JsonRT) (hcp : g.cp.JsonRT)
    (c : Code) (msg : Option (List Nat))
    (hmsg : ∀ x, msg = some x → x.length < 2 ^ 64)
    (hRB : (serializeInto (γ := g) (.SubmitResult c msg)).length < 134217728)
    (a w p : List Nat) (v : Nat) (hv : v < 65536)
    (b : Bool) (s : Option (List Nat))
    (t : g.T) (tgt : Nat) (htgt : tgt < 2 ^ 64)
    (hgt : Nat) (hhgt : hgt < 2 ^ 32) (n : g.N) (pf : g.P)
    (r : Nat)
    (hA : (serializeIntoJson (γ := g) (.Authorize a w p v)).length < 134217728)
    (hB : (serializeIntoJson (γ := g) (.AuthorizeResult b s)).length < 134217728)
    (hN : (serializeIntoJson (γ := g) (.Notify t tgt)).length < 134217728)
    (hS : (serializeIntoJson (γ := g) (.Submit hgt n pf)).length < 134217728) :
    decode g (frameOf (4 :: serializeInto (γ := g) (.SubmitResult c msg)))
      = (.ok (.SubmitResult c msg), [])
    ∧ decode g (frameOf (0 :: serializeIntoJson (γ := g) (.Authorize a w p v)))
      = (.ok (.Authorize a w p v), [])
    ∧ decode g (frameOf (1 :: serializeIntoJson (γ := g) (.AuthorizeResult b s)))
      = (.ok (.AuthorizeResult b s), [])
    ∧ decode g (frameOf (2 :: serializeIntoJson (γ := g) (.Notify t tgt)))
      = (.ok (.Notify t tgt), [])
    ∧ decode g (frameOf (3 :: serializeIntoJson (γ := g) (.Submit hgt n pf)))
      = (.ok (.Submit hgt n pf), [])
    ∧ encode (γ := g) (.ProofRate r) = leBytes 4 9 ++ (6 :: leBytes 8 r)
    ∧ encode (γ := g) (.SubmitResult c msg)
      = frameOf (4 :: serializeIntoJson (γ := g) (.SubmitResult c msg))
    ∧ decode g (encode (γ := g) (.ProofRate r)) = (.err (.unknownId 6), []) := by
  refine ⟨?_, ?_, ?_, ?_, ?_, ?_, rfl, ?_⟩
  · exact decode_frame_ok g _ _ (by simp) (by simp only [List.length_cons]; omega)
      (by rw [List.headD_cons, if_pos rfl]; exact dser_submitresult g c msg hmsg)
  · exact decode_frame_ok g _ _ (by simp) (by simp only [List.length_cons]; omega)
      (by rw [List.headD_cons, if_neg (by decide)]; exact dsj_authorize g a w p v hv)
  · exact decode_frame_ok g _ _ (by simp) (by simp only [List.length_cons]; omega)
      (by rw [List.headD_cons, if_neg (by decide)]; exact dsj_authresult g b s)
  · exact decode_frame_ok g _ _ (by simp) (by simp only [List.length_cons]; omega)
      (by rw [List.headD_cons, if_neg (by decide)]; exact dsj_notify g hct t tgt htgt)
  · exact decode_frame_ok g _ _ (by simp) (by simp only [List.length_cons]; omega)
      (by rw [List.headD_cons, if_neg (by decide)]; exact dsj_submit g hcn hcp hgt hhgt n pf)
  · show frameOf (6 :: serializeInto (γ := g) (.ProofRate r)) = _
    simp [frameOf, serializeInto, leBytes_length]
  · show decode g (frameOf (6 :: serializeInto (γ := g) (.ProofRate r))) = _
    exact decode_frame_err g _ _ (by simp)
      (by simp only [serializeInto, List.length_cons, leBytes_length]; omega)
      (by rw [List.headD_cons, if_neg (by decide)]; exact dsj_unknown g 6 _ (by omega))

/-- C3 witness: the format-selection theorem applied at concrete messages
over the trivial collaborator bundle. -/
theorem c3_witness :
    decode unitCollab (frameOf (4 :: serializeInto (γ := unitCollab) (.SubmitResult .Stale (some [104]))))
      = (.ok (.SubmitResult .Stale (some [104])), [])
    ∧ decode unitCollab (frameOf (0 :: serializeIntoJson (γ := unitCollab) (.Authorize [97] [119] [] 1)))
      = (.ok (.Authorize [97] [119] [] 1), [])
    ∧ decode unitCollab (frameOf (1 :: serializeIntoJson (γ := unitCollab) (.AuthorizeResult false none)))
      = (.ok (.AuthorizeResult false none), [])
    ∧ decode unitCollab (frameOf (2 :: serializeIntoJson (γ := unitCollab) (.Notify () 5000)))
      = (.ok (.Notify () 5000), [])
    ∧ decode unitCollab (frameOf (3 :: serializeIntoJson (γ := unitCollab) (.Submit 100 () ())))
      = (.ok (.Submit 100 () ()), [])
    ∧ encode (γ := unitCollab) (.ProofRate 7) = leBytes 4 9 ++ (6 :: leBytes 8 7)
    ∧ encode (γ := unitCollab) (.SubmitResult .Stale (some [104]))
      = frameOf (4 :: serializeIntoJson (γ := unitCollab) (.SubmitResult .Stale (some [104])))
    ∧ decode unitCollab (encode (γ := unitCollab) (.ProofRate 7))
      = (.err (.unknownId 6), []) :=
  c3_format_selection unitCollab unitCodec_jsonRT unitCodec_jsonRT unitCodec_jsonRT
    .Stale (some [104]) (by intro x hx; cases hx; decide) (by decide)
    [97] [119] [] 1 (by decide) false none () 5000 (by decide)
    100 (by decide) () () 7
    (by decide) (by decide) (by decide) (by decide)

/-- C4 (code_bug evaluation): a fully buffered, size-conforming Authorize
frame whose version field is the non-numeric string "x" makes `decode` panic
through the `unwrap` on `u16::from_str` (message.rs 239, and 193 on the
binary path) instead of returning a decode error, and the frame is not
consumed (the panic unwinds before `src.advance`). -/
theorem c4_panic_on_bad_version :
    decode unitCollab
      (leBytes 4 18 ++ 0 :: (91 :: (jsonString [97] ++ (44 :: (jsonString [97] ++ (44 ::
        (jsonString [97] ++ (44 :: (jsonString [120] ++ [93])))))))))
      = (.panicked,
        leBytes 4 18 ++ 0 :: (91 :: (jsonString [97] ++ (44 :: (jsonString [97] ++ (44 ::
          (jsonString [97] ++ (44 :: (jsonString [120] ++ [93]))))))))) := rfl

/-- C5: a fully buffered frame with an unrecognized kind id (5 or above) and
a conforming declared length is reported as an "unknown message id" decode
error, the read cursor advances by exactly 4 + length bytes (the returned
buffer is exactly the trailing bytes), and a well-formed frame that follows
in the same buffer is then decoded correctly. -/
theorem c5_unknown_id_consumed (g : Collab) (i : Nat) (payload rest : List Nat)
    (hi : 5 ≤ i) (hlen : payload.length < 134217728)
    (b : Bool) (s : Option (List Nat))
    (hB : (serializeIntoJson (γ := g) (.AuthorizeResult b s)).length < 134217728) :
    decode g (frameOf (i :: payload) ++ rest) = (.err (.unknownId i), rest)
    ∧ decode g (frameOf (i :: payload) ++ encode (γ := g) (.AuthorizeResult b s))
      = (.err (.unknownId i), encode (γ := g) (.AuthorizeResult b s))
    ∧ decode g (encode (γ := g) (.AuthorizeResult b s))
      = (.ok (.AuthorizeResult b s), []) := by
  refine ⟨?_, ?_, ?_⟩
  · exact decode_frame_err_rest g _ _ _ (by simp) (by simp only [List.length_cons]; omega)
      (by rw [List.headD_cons, if_neg (by omega)]; exact dsj_unknown g i payload hi)
  · exact decode_frame_err_rest g _ _ _ (by simp) (by simp only [List.length_cons]; omega)
      (by rw [List.headD_cons, if_neg (by omega)]; exact dsj_unknown g i payload hi)
  · show decode g (frameOf (1 :: serializeIntoJson (γ := g) (.AuthorizeResult b s))) = _
    exact decode_frame_ok g _ _ (by simp) (by simp only [List.length_cons]; omega)
      (by rw [List.headD_cons, if_neg (by decide)]; exact dsj_authresult g b s)

/-- C5 witness: the unknown-id consumption theorem applied at a concrete
id 9 frame followed by trailing bytes and by a well-formed frame. -/
theorem c5_witness :
    decode unitCollab (frameOf (9 :: [1, 2]) ++ [5, 5]) = (.err (.unknownId 9), [5, 5])
    ∧ decode unitCollab
        (frameOf (9 :: [1, 2]) ++ encode (γ := unitCollab) (.AuthorizeResult false none))
      = (.err (.unknownId 9), encode (γ := unitCollab) (.AuthorizeResult false none))
    ∧ decode unitCollab (encode (γ := unitCollab) (.AuthorizeResult false none))
      = (.ok (.AuthorizeResult false none), []) :=
  c5_unknown_id_consumed unitCollab 9 [1, 2] [5, 5] (by decide) (by decide)
    false none (by decide)

/-- C6: a buffer whose first four bytes declare a frame length strictly above
128 MiB is rejected with the fatal `tooLong` decode error, consuming nothing
(the returned buffer is the input unchanged) and without panicking; a
declared length of exactly 128 * 1024 * 1024 passes this check (with the
frame not yet buffered the decoder just asks for more data). -/
theorem c6_oversize_rejected (g : Collab) (src rest : List Nat) :
    (4 ≤ src.length → 134217728 < leNat (src.take 4) →
      decode g src = (.err .tooLong, src))
    ∧ (rest.length < 134217728 →
      decode g (leBytes 4 134217728 ++ rest)
        = (.needMore, leBytes 4 134217728 ++ rest)) := by
  constructor
  · intro h4 hlen
    simp only [decode]
    rw [if_neg (by omega), if_pos (by omega)]
  · intro hr
    have hlen4 : (leBytes 4 (134217728 : Nat)).length = 4 := leBytes_length 4 _
    have htake : (leBytes 4 (134217728 : Nat) ++ rest).take 4
        = leBytes 4 134217728 := by
      have h := List.take_left (leBytes 4 (134217728 : Nat)) rest
      rwa [hlen4] at h
    have hval : leNat ((leBytes 4 (134217728 : Nat) ++ rest).take 4) = 134217728 := by
      rw [htake]
      exact leNat_leBytes_lt 4 _ (by norm_num)
    have hsrclen : (leBytes 4 (134217728 : Nat) ++ rest).length = 4 + rest.length := by
      simp [List.length_append, hlen4]
    simp only [decode]
    rw [if_neg (by rw [hsrclen]; omega), hval, if_neg (by omega),
      if_pos (by rw [hsrclen]; omega)]

/-- C6 witness: the oversize theorem applied at the 4-byte buffer declaring
length 128 MiB + 1 and at the boundary buffer declaring exactly 128 MiB. -/
theorem c6_witness :
    decode unitCollab [1, 0, 0, 8] = (.err .tooLong, [1, 0, 0, 8])
    ∧ decode unitCollab (leBytes 4 134217728 ++ [])
      = (.needMore, leBytes 4 134217728 ++ []) :=
  ⟨(c6_oversize_rejected unitCollab [1, 0, 0, 8] []).1 (by decide) (by decide),
   (c6_oversize_rejected unitCollab [1, 0, 0, 8] []).2 (by decide)⟩

/-- C7: the non-blocking drain performed after sending the handshake
(client.rs 77) leaves the outbound queue empty whatever it contained, so at
the moment of the first post-handshake send no pre-existing entry remains and
the session's outbound wire traffic consists exactly of the messages enqueued
after the drain. -/
theorem c7_reconnect_drains_stale_queue (g : Collab)
    (q arrivals : List (ProverMessage g)) :
    drainLoop q = [] ∧ postHandshakeSends q arrivals = arrivals := by
  have hd : drainLoop q = [] := by
    induction q with
    | nil => rfl
    | cons m q ih => simpa [drainLoop] using ih
  exact ⟨hd, by simp [postHandshakeSends, hd]⟩

/-- C8: a received SubmitResult with code ProxyException emits no result
event at all, and with any other code emits exactly one result event carrying
the boolean (code == Success) and the optional reason (client.rs 112-125). -/
theorem c8_submit_result_events (g : Collab) (code : Code) (msg : Option (List Nat)) :
    (code = Code.ProxyException →
      handleInbound (γ := g) (.msg (.SubmitResult code msg)) = .keepGoing [])
    ∧ (code ≠ Code.ProxyException →
      handleInbound (γ := g) (.msg (.SubmitResult code msg))
        = .keepGoing [.Result (decide (Code.Success = code)) msg]) := by
  constructor
  · intro h
    subst h
    rfl
  · intro h
    cases code with
    | Success => rfl
    | InvalidProof => rfl
    | Stale => rfl
    | ProxyException => exact absurd rfl h

/-- C8 witness: the SubmitResult dispatch theorem applied at a ProxyException
result (suppressed) and at a Stale result (forwarded as a failure). -/
theorem c8_witness :
    handleInbound (γ := unitCollab) (.msg (.SubmitResult .ProxyException none))
      = .keepGoing []
    ∧ handleInbound (γ := unitCollab) (.msg (.SubmitResult .Stale (some [104])))
      = .keepGoing [.Result (decide (Code.Success = Code.Stale)) (some [104])] :=
  ⟨(c8_submit_result_events unitCollab .ProxyException none).1 rfl,
   (c8_submit_result_events unitCollab .Stale (some [104])).2 (by decide)⟩

/-- C9 counterexample: the claim that a further AuthorizeResult received
while Active never causes a transition is false for success=false: after a
successful handshake reply, a second AuthorizeResult with success=false hits
the same match arm (client.rs 92-104), breaks the session loop and returns to
Connecting - the run below breaks at the second event. -/
theorem c9_counterexample :
    runInbound (γ := unitCollab)
      [.msg (.AuthorizeResult true none), .msg (.AuthorizeResult false none)]
      = ([], true) := rfl

/-- C9 (amended): an AuthorizeResult with success=true never causes a
transition, whether it is the handshake reply or a duplicate while Active;
an AuthorizeResult with success=false always breaks the session loop and
returns to Connecting, including while Active - the handler is the same match
arm regardless of connection phase. -/
theorem c9_authorize_result_transitions (g : Collab) (m : Option (List Nat)) :
    handleInbound (γ := g) (.msg (.AuthorizeResult true m)) = .keepGoing []
    ∧ handleInbound (γ := g) (.msg (.AuthorizeResult false m)) = .breakLoop [] :=
  ⟨rfl, rfl⟩

/-- C10: every fully buffered, size-conforming frame whose kind id is 5
(Canary), 6 (ProofRate) or any larger value decodes to an "unknown message
id" error and never to a Canary or ProofRate message, even though the encoder
itself emits frames with kind id 6 and a binary u64 payload for ProofRate. -/
theorem c10_decoder_rejects_ids_above_4 (g : Collab) (i : Nat)
    (payload rest : List Nat) (hi : 5 ≤ i) (hlen : payload.length < 134217728)
    (r : Nat) :
    decode g (frameOf (i :: payload) ++ rest) = (.err (.unknownId i), rest)
    ∧ (∀ m : ProverMessage g, (decode g (frameOf (i :: payload) ++ rest)).1 ≠ .ok m)
    ∧ encode (γ := g) (.ProofRate r) = leBytes 4 9 ++ (6 :: leBytes 8 r) := by
  have h1 : decode g (frameOf (i :: payload) ++ rest) = (.err (.unknownId i), rest) :=
    decode_frame_err_rest g _ _ _ (by simp) (by simp only [List.length_cons]; omega)
      (by rw [List.headD_cons, if_neg (by omega)]; exact dsj_unknown g i payload hi)
  refine ⟨h1, ?_, ?_⟩
  · intro m hm
    rw [h1] at hm
    cases hm
  · show frameOf (6 :: serializeInto (γ := g) (.ProofRate r)) = _
    simp [frameOf, serializeInto, leBytes_length]

/-- C10 witness: the theorem applied at a concrete id 6 frame (the id the
encoder uses for ProofRate) with a one-byte payload. -/
theorem c10_witness :
    decode unitCollab (frameOf (6 :: [1]) ++ []) = (.err (.unknownId 6), [])
    ∧ (∀ m : ProverMessage unitCollab,
        (decode unitCollab (frameOf (6 :: [1]) ++ [])).1 ≠ .ok m)
    ∧ encode (γ := unitCollab) (.ProofRate 3) = leBytes 4 9 ++ (6 :: leBytes 8 3) :=
  c10_decoder_rejects_ids_above_4 unitCollab 6 [1] [] (by decide) (by decide) 3

end AXM

